import Mathlib

/-!
Verification of the ragged/padded sequence-batching adapter layer
(`thinc/layers/with_ragged.py`) and of the attention batch helpers
exercised by `bin/benchmark_multihead_attention.py`.

The adapter code is embedded from the source.  The array backend
(`flatten`, `unflatten`, `list2padded`, `padded2list`, `asarray`), the
`Ragged`/`Padded` container types and the `Model` composition unit are
code of the library that is not part of the excerpt; those are modelled
from the spec, as marked in their doc comments.  2-D arrays are modelled
as lists of rows; integer length vectors as lists of naturals.
-/

namespace Thinc

/-- A 2-D array, as a list of rows. -/
abbrev Array2d (α : Type) : Type := List (List α)

/-- Modelled from the spec: `Ragged` — a flat 2-D data buffer holding all
sequence items concatenated in batch order, plus a per-item length vector.
The type itself enforces nothing (the `sum lengths = rows` invariant is
stated by the spec but not checked by any constructor). -/
structure Ragged (α : Type) where
  data : Array2d α
  lengths : List Nat
deriving DecidableEq

/-- Modelled from the spec: `Padded` — a dense zero-filled buffer (one
padded row-block per batch entry), the per-timestep active counts
`size_at_t`, and the per-item lengths that the backend needs in order to
strip the padding again (the spec requires `padded2list ∘ list2padded`
to be the identity, which is impossible from the zero-filled data
alone). -/
structure Padded (α : Type) where
  data : List (List (List α))
  size_at_t : List Nat
  lengths : List Nat
deriving DecidableEq

/-- Modelled from the spec: backend `flatten` — concatenate a list of 2-D
arrays along axis 0. -/
def flatten {α : Type} (xs : List (Array2d α)) : Array2d α :=
  xs.flatten

/-- Modelled from the spec: backend `unflatten` — split a flat 2-D array
back into per-item arrays according to `lengths`. -/
def unflatten {α : Type} (data : Array2d α) (lengths : List Nat) :
    List (Array2d α) :=
  match lengths with
  | [] => []
  | l :: ls => data.take l :: unflatten (data.drop l) ls

/-- Modelled from the spec: backend `list2padded` — zero-fill every item
to the maximum length and record `size_at_t` (how many items are still
active at each step) and the per-item lengths.  The model keeps the
items in their original batch order (the spec allows but does not
require reordering). -/
def list2padded {α : Type} [Zero α] (xs : List (Array2d α)) : Padded α :=
  let lens := xs.map List.length
  let maxLen := lens.foldr max 0
  let nF := ((xs.headD []).headD []).length
  { data := xs.map (fun x => x ++ List.replicate (maxLen - x.length) (List.replicate nF 0)),
    size_at_t := (List.range maxLen).map (fun t => (lens.filter (fun l => t < l)).length),
    lengths := lens }

/-- Modelled from the spec: backend `padded2list` — strip each item's
padding using the stored per-item lengths. -/
def padded2list {α : Type} (p : Padded α) : List (Array2d α) :=
  (p.data.zip p.lengths).map (fun q => q.1.take q.2)

/-- A value of the backend's 1-D/2-D dynamic array universe, used for the
components of a Python tuple input. -/
inductive PyArr (α : Type) : Type where
  | a2 : Array2d α → PyArr α
  | a1 : List Nat → PyArr α
deriving DecidableEq

/-- The dynamic universe of inputs the adapter's `forward` can receive:
a `Ragged`, a `Padded`, a Python list of 2-D arrays, or a Python tuple
of arbitrary arity (a well-formed `RaggedData` flat tuple is the
two-element case `[a2 data, a1 lengths]`). -/
inductive PyVal (α : Type) : Type where
  | ragged : Ragged α → PyVal α
  | padded : Padded α → PyVal α
  | listV : List (Array2d α) → PyVal α
  | tupleV : List (PyArr α) → PyVal α
deriving DecidableEq

/-- The four representation kinds of the data model. -/
inductive RKind : Type where
  | kRagged | kPadded | kList | kTuple
deriving DecidableEq

/-- The representation kind a value actually has (a tuple of any arity
counts as tuple). -/
def kindOf {α : Type} : PyVal α → RKind
  | .ragged _ => .kRagged
  | .padded _ => .kPadded
  | .listV _ => .kList
  | .tupleV _ => .kTuple

/-- Well-formed membership in one of the four representation kinds (for
a tuple: exactly two elements, flat 2-D data then 1-D lengths). -/
def isSeqKind {α : Type} : PyVal α → Bool
  | .ragged _ => true
  | .padded _ => true
  | .listV _ => true
  | .tupleV [.a2 _, .a1 _] => true
  | .tupleV _ => false

/-- Failures of the embedded dynamic code: `indexError` models
`model.layers[0]` on an empty layer list, `typeMismatch` models the
dynamic type errors Python raises when a value of the wrong runtime
shape reaches an array operation. -/
inductive PyErr : Type where
  | indexError | typeMismatch
deriving DecidableEq

/-- Source `_is_ragged_data`: `isinstance(seq, tuple) and len(seq) == 2`. -/
def is_ragged_data {α : Type} : PyVal α → Bool
  | .tupleV es => es.length == 2
  | _ => false

/-- The dispatch performed by the source `forward` (its `if`/`elif`
chain, in order): `Ragged`, then `Padded`, then `_is_ragged_data`, and
everything else falls to the list branch. -/
def classify {α : Type} (X : PyVal α) : RKind :=
  match X with
  | .ragged _ => .kRagged
  | .padded _ => .kPadded
  | x => if is_ragged_data x then .kTuple else .kList

/-- The elements of a Python list (or tuple) viewed as a list of 2-D
arrays, as the source's catch-all `_list_forward` branch does; `none`
when some element is not a 2-D array (Python would fail only later,
inside the backend's `flatten`). -/
def asList2d {α : Type} : PyVal α → Option (List (Array2d α))
  | .listV xs => some xs
  | .tupleV es => es.mapM (fun e => match e with | .a2 a => some a | .a1 _ => none)
  | _ => none

/-- The wrapped Ragged-to-Ragged layer: a name, a forward returning the
output together with its gradient function, and an update function
standing for the layer's own parameter/shape initialization acting on
an abstract internal state `σ`. -/
structure RLayer (α σ : Type) where
  name : String
  fwd : Ragged α → Bool → Ragged α × (Ragged α → Ragged α)
  state : σ
  initF : σ → Option (Ragged α) → Option (Ragged α) → σ

/-- Modelled from the spec: the `Model` composition unit, reduced to the
fields the adapter uses — a name and the sub-layer list. -/
structure Model (α σ : Type) where
  name : String
  layers : List (RLayer α σ)

/-- Source `with_ragged`: build the adapter model around one wrapped
layer. -/
def with_ragged {α σ : Type} (layer : RLayer α σ) : Model α σ :=
  { name := "with_ragged-" ++ layer.name, layers := [layer] }

/-- Source `_tuple_forward`. -/
def tuple_forward {α σ : Type} (layer : RLayer α σ) (d : Array2d α)
    (ls : List Nat) (is_train : Bool) :
    (Array2d α × List Nat) × ((Array2d α × List Nat) → Array2d α × List Nat) :=
  let fw := layer.fwd ⟨d, ls⟩ is_train
  ((fw.1.data, fw.1.lengths),
   fun dY =>
     let dXr := fw.2 ⟨dY.1, dY.2⟩
     (dXr.data, dXr.lengths))

/-- Source `_padded_forward`. -/
def padded_forward {α σ : Type} [Zero α] (layer : RLayer α σ) (Xp : Padded α)
    (is_train : Bool) : Padded α × (Padded α → Padded α) :=
  let Xs := padded2list Xp
  let lengths := Xs.map List.length
  let fw := layer.fwd ⟨flatten Xs, lengths⟩ is_train
  (list2padded (unflatten fw.1.data fw.1.lengths),
   fun dYp =>
     list2padded (unflatten (fw.2 ⟨flatten (padded2list dYp), lengths⟩).data lengths))

/-- Source `_list_forward`. -/
def list_forward {α σ : Type} (layer : RLayer α σ) (Xs : List (Array2d α))
    (is_train : Bool) :
    List (Array2d α) × (List (Array2d α) → List (Array2d α)) :=
  let lengths := Xs.map List.length
  let fw := layer.fwd ⟨flatten Xs, lengths⟩ is_train
  (unflatten fw.1.data fw.1.lengths,
   fun dYs => unflatten (fw.2 ⟨flatten dYs, lengths⟩).data lengths)

/-- Source `forward`: dispatch on the runtime representation of the
input and run the matching conversion path.  The returned gradient
function is exposed over the same dynamic universe; feeding it a value
of a different runtime shape than the matching path expects is the
dynamic `typeMismatch` failure. -/
def forward {α σ : Type} [Zero α] (model : Model α σ) (Xseq : PyVal α)
    (is_train : Bool) :
    Except PyErr (PyVal α × (PyVal α → Except PyErr (PyVal α))) :=
  match model.layers with
  | [] => .error .indexError
  | layer :: _ =>
    match Xseq with
    | .ragged r =>
        let fw := layer.fwd r is_train
        .ok (.ragged fw.1,
             fun g => match g with
               | .ragged dYr => .ok (.ragged (fw.2 dYr))
               | _ => .error .typeMismatch)
    | .padded p =>
        let fw := padded_forward layer p is_train
        .ok (.padded fw.1,
             fun g => match g with
               | .padded dYp => .ok (.padded (fw.2 dYp))
               | _ => .error .typeMismatch)
    | x =>
        if is_ragged_data x then
          match x with
          | .tupleV [.a2 d, .a1 ls] =>
              let fw := tuple_forward layer d ls is_train
              .ok (.tupleV [.a2 fw.1.1, .a1 fw.1.2],
                   fun g => match g with
                     | .tupleV [.a2 gd, .a1 gls] =>
                         let dX := fw.2 (gd, gls)
                         .ok (.tupleV [.a2 dX.1, .a1 dX.2])
                     | _ => .error .typeMismatch)
          | _ => .error .typeMismatch
        else
          match asList2d x with
          | some xs =>
              let fw := list_forward layer xs is_train
              .ok (.listV fw.1,
                   fun g => match g with
                     | .listV dYs => .ok (.listV (fw.2 dYs))
                     | _ => .error .typeMismatch)
          | none => .error .typeMismatch

/-- Source `_get_ragged`: the per-kind conversion of any input to
`Ragged`, used by `init` (identity on `Ragged`; `padded2list` then
fresh lengths then `flatten` for `Padded`; direct repackaging for a
2-tuple; lengths from item sizes then `flatten` for a list). -/
def get_ragged {α : Type} (seq : PyVal α) : Except PyErr (Ragged α) :=
  match seq with
  | .ragged r => .ok r
  | .padded p =>
      let lists := padded2list p
      .ok ⟨flatten lists, lists.map List.length⟩
  | s =>
      if is_ragged_data s then
        match s with
        | .tupleV [.a2 d, .a1 ls] => .ok ⟨d, ls⟩
        | _ => .error .typeMismatch
      else
        match asList2d s with
        | some xs => .ok ⟨flatten xs, xs.map List.length⟩
        | none => .error .typeMismatch

/-- Source `init`: convert the provided sample arguments (when present)
to `Ragged` via `_get_ragged`, make one delegated initialization call
on the wrapped sub-layer `layers[0]`, and return the model. -/
def init {α σ : Type} (model : Model α σ) (X Y : Option (PyVal α)) :
    Except PyErr (Model α σ) :=
  match model.layers with
  | [] => .error .indexError
  | l :: rest => do
      let rx : Option (Ragged α) ←
        match X with
        | none => pure none
        | some x => do pure (some (← get_ragged x))
      let ry : Option (Ragged α) ←
        match Y with
        | none => pure none
        | some y => do pure (some (← get_ragged y))
      pure { model with layers := { l with state := l.initF l.state rx ry } :: rest }

/-- The identity wrapped layer used by the spec's testable properties. -/
def idLayer (α : Type) : RLayer α Unit :=
  { name := "noop",
    fwd := fun r _ => (r, fun d => d),
    state := (),
    initF := fun s _ _ => s }

/-!
Attention batch helpers.  The classes `AttentionInputs` and
`PaddedAttentionInputs` (`thinc/neural/_classes/multiheaded_attention.py`)
are not part of the excerpt — only the benchmark harness that builds and
calls them is — so the attention computation is modelled from the spec
(§4.2): per-head scaled dot-product self-attention within each batch
item, computed per contiguous item-slice of the flat buffer in the
ragged form, and over the dense tensor with padding masked out of the
softmax normalization in the padded form.  Arithmetic is exact (`ℚ`);
the softmax exponential `f` and the `1/√head_dim` scale `c` are
parameters, since only their role is fixed by the spec. -/

/-- Offset of batch item `i` in the flat concatenated buffer. -/
def startAt (lengths : List Nat) (i : Nat) : Nat :=
  (lengths.take i).sum

/-- The maximum item length of a batch (`max(lengths)` in the harness). -/
def maxLen (lengths : List Nat) : Nat :=
  lengths.foldr max 0

/-- Modelled from the spec: `AttentionInputs` — a fused QKV buffer of
shape (total_items, 3, num_heads, head_dim), as an index function
(position, channel 0=Q/1=K/2=V, head, dim), plus per-item lengths. -/
structure AttentionInputs where
  QKV : Nat → Nat → Nat → Nat → Rat
  lengths : List Nat

/-- Scaled dot-product score between flat query position `p` and flat
key position `u` for head `h`. -/
def AttentionInputs.score (A : AttentionInputs) (c : Rat) (D : Nat)
    (p u h : Nat) : Rat :=
  c * ∑ d in Finset.range D, A.QKV p 0 h d * A.QKV u 1 h d

/-- Softmax normalizer of the ragged path for local query position `t`
of the item starting at `start` with length `len`. -/
def AttentionInputs.denom (A : AttentionInputs) (f : Rat → Rat) (c : Rat)
    (D start len t h : Nat) : Rat :=
  ∑ u in Finset.range len, f (A.score c D (start + t) (start + u) h)

/-- Softmax weight of the ragged path (item-local query `t`, key `u`). -/
def AttentionInputs.weight (A : AttentionInputs) (f : Rat → Rat) (c : Rat)
    (D start len t u h : Nat) : Rat :=
  f (A.score c D (start + t) (start + u) h) / A.denom f c D start len t h

/-- Ragged-path attention output for item `i`, item-local position `t`,
head `h`, dimension `d`: computed over the contiguous slice
`[startAt i, startAt i + lengths[i])` of the flat buffer. -/
def AttentionInputs.attnItem (A : AttentionInputs) (f : Rat → Rat) (c : Rat)
    (D i t h d : Nat) : Rat :=
  ∑ u in Finset.range (A.lengths.getD i 0),
    A.weight f c D (startAt A.lengths i) (A.lengths.getD i 0) t u h *
      A.QKV (startAt A.lengths i + u) 2 h d

/-- Modelled from the spec: `PaddedAttentionInputs` — a dense buffer of
shape (batch, max_length, 3, num_heads, head_dim) as an index function
(item, step, channel, head, dim), plus per-item lengths. -/
structure PaddedAttentionInputs where
  data : Nat → Nat → Nat → Nat → Nat → Rat
  lengths : List Nat

/-- Source `get_padded_attn_inputs` (benchmark harness): allocate a
zero-filled dense buffer and copy each item's slice
`values[start:start+length]` into its row-block. -/
def get_padded_attn_inputs (lengths : List Nat)
    (values : Nat → Nat → Nat → Nat → Rat) : PaddedAttentionInputs :=
  { data := fun i t ch h d =>
      if t < lengths.getD i 0 then values (startAt lengths i + t) ch h d else 0,
    lengths := lengths }

/-- Scaled dot-product score of the padded path between steps `t` and
`u` of item `i`, head `h`. -/
def PaddedAttentionInputs.score (P : PaddedAttentionInputs) (c : Rat)
    (D i t u h : Nat) : Rat :=
  c * ∑ d in Finset.range D, P.data i t 0 h d * P.data i u 1 h d

/-- Masked softmax normalizer of the padded path: padding steps
contribute zero probability mass (not a uniform share). -/
def PaddedAttentionInputs.denom (P : PaddedAttentionInputs) (f : Rat → Rat)
    (c : Rat) (D i t h : Nat) : Rat :=
  ∑ u in Finset.range (maxLen P.lengths),
    if u < P.lengths.getD i 0 then f (P.score c D i t u h) else 0

/-- Masked softmax weight of the padded path: zero whenever the query
step or the key step lies in the padding of item `i`. -/
def PaddedAttentionInputs.weight (P : PaddedAttentionInputs) (f : Rat → Rat)
    (c : Rat) (D i t u h : Nat) : Rat :=
  if t < P.lengths.getD i 0 ∧ u < P.lengths.getD i 0 then
    f (P.score c D i t u h) / P.denom f c D i t h
  else 0

/-- Padded-path attention output over the full dense tensor. -/
def PaddedAttentionInputs.attn (P : PaddedAttentionInputs) (f : Rat → Rat)
    (c : Rat) (D i t h d : Nat) : Rat :=
  ∑ u in Finset.range (maxLen P.lengths),
    P.weight f c D i t u h * P.data i u 2 h d

/-- Modelled from the spec: gradient of the padded attention with
respect to the value channel of the fused QKV buffer, given the output
gradient `dA` (propagation through the second matrix product). -/
def PaddedAttentionInputs.dV (P : PaddedAttentionInputs) (f : Rat → Rat)
    (c : Rat) (D : Nat) (dA : Nat → Nat → Nat → Nat → Rat)
    (i u h d : Nat) : Rat :=
  ∑ t in Finset.range (maxLen P.lengths),
    P.weight f c D i t u h * dA i t h d

/-- Gradient of the loss with respect to the softmax weight at
(query `t`, key `u`). -/
def PaddedAttentionInputs.dScore (P : PaddedAttentionInputs) (D : Nat)
    (dA : Nat → Nat → Nat → Nat → Rat) (i t u h : Nat) : Rat :=
  ∑ d in Finset.range D, dA i t h d * P.data i u 2 h d

/-- Modelled from the spec: gradient with respect to the pre-softmax
logit at (query `t`, key `u`) — the softmax backward rule. -/
def PaddedAttentionInputs.dLogit (P : PaddedAttentionInputs) (f : Rat → Rat)
    (c : Rat) (D : Nat) (dA : Nat → Nat → Nat → Nat → Rat)
    (i t u h : Nat) : Rat :=
  P.weight f c D i t u h *
    (P.dScore D dA i t u h -
      ∑ v in Finset.range (maxLen P.lengths),
        P.weight f c D i t v h * P.dScore D dA i t v h)

/-- Modelled from the spec: gradient of the padded attention with
respect to the query channel (propagation through the softmax and the
first matrix product). -/
def PaddedAttentionInputs.dQ (P : PaddedAttentionInputs) (f : Rat → Rat)
    (c : Rat) (D : Nat) (dA : Nat → Nat → Nat → Nat → Rat)
    (i t h d : Nat) : Rat :=
  c * ∑ u in Finset.range (maxLen P.lengths),
    P.dLogit f c D dA i t u h * P.data i u 1 h d

/-- Modelled from the spec: gradient of the padded attention with
respect to the key channel. -/
def PaddedAttentionInputs.dK (P : PaddedAttentionInputs) (f : Rat → Rat)
    (c : Rat) (D : Nat) (dA : Nat → Nat → Nat → Nat → Rat)
    (i u h d : Nat) : Rat :=
  c * ∑ t in Finset.range (maxLen P.lengths),
    P.dLogit f c D dA i t u h * P.data i t 0 h d

/-- Option-lifted sample conversion, for stating the contract of `init`:
`none` stays `none`, `some x` is converted with `get_ragged`. -/
def optRagged {α : Type} (o : Option (PyVal α)) :
    Except PyErr (Option (Ragged α)) :=
  match o with
  | none => .ok none
  | some x => (get_ragged x).map some

/-!
Round-trip facts about the modelled backend, required by the spec
(§6, "these must be exact inverses"), followed by the claim theorems.
-/

theorem unflatten_flatten {α : Type} (xs : List (Array2d α)) :
    unflatten (flatten xs) (xs.map List.length) = xs := by
  induction xs with
  | nil => rfl
  | cons x rest ih =>
    simp only [flatten, List.flatten_cons, unflatten, List.map_cons]
    rw [List.take_left, List.drop_left]
    exact congrArg (x :: ·) ih

theorem padded2list_list2padded {α : Type} [Zero α] (xs : List (Array2d α)) :
    padded2list (list2padded xs) = xs := by
  simp only [padded2list, list2padded, List.zip_map', List.map_map]
  conv_rhs => rw [← List.map_id xs]
  apply List.map_congr_left
  intro a _
  simp only [Function.comp_apply, List.take_left, id]

theorem asList2d_map_a2 {α : Type} (es : List (Array2d α)) :
    asList2d (.tupleV (es.map PyArr.a2)) = some es := by
  induction es with
  | nil => rfl
  | cons e rest ih =>
    simp only [asList2d, List.map_cons, List.mapM_cons] at ih ⊢
    rw [ih]
    rfl

/-- C1: for every input of any of the four representation kinds and
every wrapped Ragged-to-Ragged layer, the adapter's forward succeeds
and returns an output of the same representation kind as its input. -/
theorem forward_representation_symmetry {α σ : Type} [Zero α]
    (L : RLayer α σ) (X : PyVal α) (is_train : Bool)
    (hX : isSeqKind X = true) :
    ∃ Y bp, forward (with_ragged L) X is_train = .ok (Y, bp) ∧
      kindOf Y = kindOf X := by
  cases X with
  | ragged r => exact ⟨_, _, rfl, rfl⟩
  | padded p => exact ⟨_, _, rfl, rfl⟩
  | listV xs => exact ⟨_, _, rfl, rfl⟩
  | tupleV es =>
    match es, hX with
    | [.a2 d, .a1 ls], _ => exact ⟨_, _, rfl, rfl⟩

/-- C1 witness: the symmetry theorem applied to the identity layer and a
concrete one-item Ragged input. -/
theorem forward_representation_symmetry_witness :
    isSeqKind (α := Int) (.ragged ⟨[[1]], [1]⟩) = true ∧
    ∃ Y bp,
      forward (with_ragged (idLayer Int)) (.ragged ⟨[[1]], [1]⟩) true =
        .ok (Y, bp) ∧
      kindOf Y = kindOf (α := Int) (.ragged ⟨[[1]], [1]⟩) :=
  ⟨by decide,
   forward_representation_symmetry (idLayer Int) (.ragged ⟨[[1]], [1]⟩) true
     (by decide)⟩

/-- C2: the backward closures produced by the padded and list forward
paths convert the incoming gradient to Ragged with the lengths vector
captured during that forward call (`lengths` computed from the forward
input), call the wrapped layer's gradient function, and convert back
with those same lengths; no lengths are derived from the gradient
value anywhere in either equation. -/
theorem backward_uses_captured_lengths {α σ : Type} [Zero α]
    (L : RLayer α σ) (is_train : Bool) (Xp dYp : Padded α)
    (Xs dYs : List (Array2d α)) :
    (forward (with_ragged L) (.padded Xp) is_train).map
        (fun r => r.2 (.padded dYp)) =
      .ok (.ok (.padded (list2padded (unflatten
        ((L.fwd ⟨flatten (padded2list Xp), (padded2list Xp).map List.length⟩
            is_train).2
          ⟨flatten (padded2list dYp), (padded2list Xp).map List.length⟩).data
        ((padded2list Xp).map List.length))))) ∧
    (forward (with_ragged L) (.listV Xs) is_train).map
        (fun r => r.2 (.listV dYs)) =
      .ok (.ok (.listV (unflatten
        ((L.fwd ⟨flatten Xs, Xs.map List.length⟩ is_train).2
          ⟨flatten dYs, Xs.map List.length⟩).data
        (Xs.map List.length)))) :=
  ⟨rfl, rfl⟩

/-- C5 counterexample: a 3-tuple (a malformed FlatTuple) is classified
by the forward dispatch as a list of arrays, so tuple-vs-list
discrimination is not exact in the direction the claim states. -/
theorem malformed_tuple_classified_as_list :
    classify (α := Int) (.tupleV [.a2 [[1]], .a2 [[2]], .a2 [[3]]]) =
      .kList := by decide

/-- C5 amended: a tuple without exactly two elements is never classified
as Ragged, Padded, or FlatTuple — it falls to the list branch of the
dispatch; conversely a list of arrays (of any length, including two) is
always classified as a list, never as a 2-tuple flat form. -/
theorem tuple_list_discrimination {α : Type} (es : List (PyArr α))
    (xs : List (Array2d α)) (h : es.length ≠ 2) :
    classify (.tupleV es) = .kList ∧ classify (α := α) (.listV xs) = .kList := by
  constructor
  · have hb : (es.length == 2) = false := by
      simpa using h
    simp [classify, is_ragged_data, hb]
  · rfl

/-- C5 amended witness: the discrimination theorem at a concrete
3-tuple and a concrete 2-element list. -/
theorem tuple_list_discrimination_witness :
    ([PyArr.a2 (α := Int) [[1]], .a2 [[2]], .a2 [[3]]].length ≠ 2) ∧
    (classify (α := Int) (.tupleV [.a2 [[1]], .a2 [[2]], .a2 [[3]]]) = .kList ∧
     classify (α := Int) (.listV [[[1]], [[2]]]) = .kList) :=
  ⟨by decide,
   tuple_list_discrimination [.a2 [[1]], .a2 [[2]], .a2 [[3]]]
     [[[1]], [[2]]] (by decide)⟩

/-- C6 counterexample: a Ragged whose data has 10 rows but whose lengths
are [3, 3] (summing to 6) is processed without any error and returned
unchanged by the adapter around the identity layer — no
length-integrity error is signalled. -/
theorem length_mismatch_not_detected :
    (forward (with_ragged (idLayer Int))
        (.ragged ⟨List.replicate 10 [0], [3, 3]⟩) true).map (fun r => r.1) =
      .ok (.ragged ⟨List.replicate 10 [0], [3, 3]⟩) := rfl

/-- C6 amended: the adapter performs no length-integrity validation on a
Ragged input: even when `sum lengths` differs from the number of data
rows, forward proceeds, feeding the inconsistent Ragged to the wrapped
layer as-is and returning the layer's output — it neither errors nor
truncates nor pads. -/
theorem length_mismatch_passed_through {α σ : Type} [Zero α]
    (L : RLayer α σ) (is_train : Bool) (data : Array2d α)
    (lens : List Nat) (_h : lens.sum ≠ data.length) :
    (forward (with_ragged L) (.ragged ⟨data, lens⟩) is_train).map
        (fun r => r.1) =
      .ok (.ragged (L.fwd ⟨data, lens⟩ is_train).1) := rfl

/-- C6 amended witness: the pass-through theorem at the spec's concrete
integrity-violation input (10 rows, lengths [3, 3]). -/
theorem length_mismatch_passed_through_witness :
    ([3, 3].sum ≠ (List.replicate 10 ([0] : List Int)).length) ∧
    (forward (with_ragged (idLayer Int))
        (.ragged ⟨List.replicate 10 [0], [3, 3]⟩) true).map (fun r => r.1) =
      .ok (.ragged ((idLayer Int).fwd ⟨List.replicate 10 [0], [3, 3]⟩ true).1) :=
  ⟨by decide,
   length_mismatch_passed_through (idLayer Int) true
     (List.replicate 10 [0]) [3, 3] (by decide)⟩

/-- C7 counterexample: a 1-tuple — a value of none of the four sequence
kinds — is not rejected: the adapter processes it under the list
conversion path and succeeds, returning a list. -/
theorem unclassifiable_input_not_rejected :
    (forward (with_ragged (idLayer Int)) (.tupleV [.a2 [[5]]]) true).map
        (fun r => r.1) =
      .ok (.listV [[[5]]]) := rfl

/-- C7 amended: an input that is none of the four sequence kinds (a
tuple of 2-D arrays whose arity is not 2) is not met with a
representation-mismatch error; the dispatch's catch-all branch
processes it exactly like a list of arrays. -/
theorem unclassifiable_input_processed_as_list {α σ : Type} [Zero α]
    (L : RLayer α σ) (is_train : Bool) (es : List (Array2d α))
    (h : es.length ≠ 2) :
    (forward (with_ragged L) (.tupleV (es.map PyArr.a2)) is_train).map
        (fun r => r.1) =
      .ok (.listV (list_forward L es is_train).1) := by
  have hb : ((es.map PyArr.a2).length == 2) = false := by
    simpa using h
  simp only [forward, with_ragged, is_ragged_data, hb, Bool.false_eq_true,
    if_false, asList2d_map_a2, Except.map]

/-- C7 amended witness: the catch-all theorem at a concrete 3-tuple. -/
theorem unclassifiable_input_processed_as_list_witness :
    ([[[1]], [[2]], [[3]]] : List (Array2d Int)).length ≠ 2 ∧
    (forward (with_ragged (idLayer Int))
        (.tupleV (([[[1]], [[2]], [[3]]] : List (Array2d Int)).map PyArr.a2))
        true).map (fun r => r.1) =
      .ok (.listV (list_forward (idLayer Int) [[[1]], [[2]], [[3]]] true).1) :=
  ⟨by decide,
   unclassifiable_input_processed_as_list (idLayer Int) true
     [[[1]], [[2]], [[3]]] (by decide)⟩

/-- C8: the per-kind conversion rule to Ragged — identity on Ragged;
for Padded, `padded2list` then lengths recomputed fresh from the item
sizes of the resulting list, then `flatten`; for a list, lengths from
item sizes then `flatten`; for a 2-tuple, direct repackaging of its two
fields.  The forward padded path invokes the wrapped layer on a Ragged
built by the same rule, and the final conjunct shows the lengths come
from the list form, not from the Padded object's own metadata (a Padded
whose stored lengths claim 5 rows yields fresh lengths [1]). -/
theorem get_ragged_per_kind_rule {α σ : Type} [Zero α] :
    (∀ r : Ragged α, get_ragged (.ragged r) = .ok r) ∧
    (∀ p : Padded α, get_ragged (.padded p) =
      .ok ⟨flatten (padded2list p), (padded2list p).map List.length⟩) ∧
    (∀ xs : List (Array2d α), get_ragged (.listV xs) =
      .ok ⟨flatten xs, xs.map List.length⟩) ∧
    (∀ (d : Array2d α) (ls : List Nat),
      get_ragged (.tupleV [.a2 d, .a1 ls]) = .ok ⟨d, ls⟩) ∧
    (∀ (L : RLayer α σ) (Xp : Padded α) (is_train : Bool),
      padded_forward L Xp is_train =
        (let fw := L.fwd
            ⟨flatten (padded2list Xp), (padded2list Xp).map List.length⟩
            is_train
         (list2padded (unflatten fw.1.data fw.1.lengths),
          fun dYp => list2padded (unflatten
            (fw.2 ⟨flatten (padded2list dYp),
              (padded2list Xp).map List.length⟩).data
            ((padded2list Xp).map List.length))))) ∧
    get_ragged (α := Int) (.padded ⟨[[[7]]], [1], [5]⟩) =
      .ok ⟨[[7]], [1]⟩ :=
  ⟨fun _ => rfl, fun _ => rfl, fun _ => rfl, fun _ _ => rfl,
   fun _ _ _ => rfl, rfl⟩

/-- C3: for a wrapped layer whose forward is the identity on Ragged
(with the modelled backend's flatten/unflatten and
list2padded/padded2list pairs being exact inverses, proved above), the
backward closure returns the incoming gradient itself, re-expressed in
the input's representation kind, for each of the four kinds; for the
list and padded kinds the gradient has the shape of the forward output
(item lengths matching the input's). -/
theorem gradient_round_trip {α σ : Type} [Zero α] (L : RLayer α σ)
    (is_train : Bool) (hL : ∀ r b, L.fwd r b = (r, fun g => g))
    (Xr dYr : Ragged α) (d gd : Array2d α) (ls gls : List Nat)
    (Xs dYs Xsp dYsp : List (Array2d α))
    (hlen : dYs.map List.length = Xs.map List.length)
    (hlenp : dYsp.map List.length = Xsp.map List.length) :
    (forward (with_ragged L) (.ragged Xr) is_train).map
        (fun r => r.2 (.ragged dYr)) = .ok (.ok (.ragged dYr)) ∧
    (forward (with_ragged L) (.tupleV [.a2 d, .a1 ls]) is_train).map
        (fun r => r.2 (.tupleV [.a2 gd, .a1 gls])) =
      .ok (.ok (.tupleV [.a2 gd, .a1 gls])) ∧
    (forward (with_ragged L) (.listV Xs) is_train).map
        (fun r => r.2 (.listV dYs)) = .ok (.ok (.listV dYs)) ∧
    (forward (with_ragged L) (.padded (list2padded Xsp)) is_train).map
        (fun r => r.2 (.padded (list2padded dYsp))) =
      .ok (.ok (.padded (list2padded dYsp))) := by
  refine ⟨?_, ?_, ?_, ?_⟩
  · simp [forward, with_ragged, hL, Except.map]
  · simp [forward, with_ragged, tuple_forward, hL, is_ragged_data,
      Except.map]
  · simp only [forward, with_ragged, list_forward, hL, is_ragged_data,
      asList2d, Bool.false_eq_true, if_false, Except.map]
    rw [← hlen, unflatten_flatten]
  · simp only [forward, with_ragged, padded_forward, hL, Except.map,
      padded2list_list2padded]
    rw [← hlenp, unflatten_flatten]

/-- C3 witness: the round-trip theorem at the identity layer with
concrete one-item inputs and gradients of matching shape in all four
representation kinds. -/
theorem gradient_round_trip_witness :
    (∀ r b, (idLayer Int).fwd r b = (r, fun g => g)) ∧
    ([[[9]]] : List (Array2d Int)).map List.length =
      ([[[4]]] : List (Array2d Int)).map List.length ∧
    ([[[8]]] : List (Array2d Int)).map List.length =
      ([[[3]]] : List (Array2d Int)).map List.length ∧
    ((forward (with_ragged (idLayer Int)) (.ragged ⟨[[1]], [1]⟩) true).map
        (fun r => r.2 (.ragged ⟨[[2]], [1]⟩)) =
      .ok (.ok (.ragged ⟨[[2]], [1]⟩)) ∧
    (forward (with_ragged (idLayer Int))
        (.tupleV [.a2 [[1]], .a1 [1]]) true).map
        (fun r => r.2 (.tupleV [.a2 [[7]], .a1 [1]])) =
      .ok (.ok (.tupleV [.a2 [[7]], .a1 [1]])) ∧
    (forward (with_ragged (idLayer Int)) (.listV [[[4]]]) true).map
        (fun r => r.2 (.listV [[[9]]])) = .ok (.ok (.listV [[[9]]])) ∧
    (forward (with_ragged (idLayer Int))
        (.padded (list2padded [[[3]]])) true).map
        (fun r => r.2 (.padded (list2padded [[[8]]]))) =
      .ok (.ok (.padded (list2padded [[[8]]])))) :=
  ⟨fun _ _ => rfl, rfl, rfl,
   gradient_round_trip (idLayer Int) true (fun _ _ => rfl)
     ⟨[[1]], [1]⟩ ⟨[[2]], [1]⟩ [[1]] [[7]] [1] [1]
     [[[4]]] [[[9]]] [[[3]]] [[[8]]] rfl rfl⟩

/-- C9: `init` converts each provided sample argument to Ragged with
`get_ragged` before the delegated call — the wrapped sub-layer's
initialization only ever receives the converted Ragged (or `none` for
an absent argument) — and the forward padded and list paths invoke the
wrapped layer on exactly the Ragged that `get_ragged` yields for the
same input, i.e. the conversion rule is shared. -/
theorem init_converts_to_ragged {α σ : Type} [Zero α] (L : RLayer α σ)
    (X Y : PyVal α) (rx ry : Ragged α)
    (hx : get_ragged X = .ok rx) (hy : get_ragged Y = .ok ry) :
    init (with_ragged L) (some X) (some Y) =
      .ok { name := "with_ragged-" ++ L.name,
            layers := [{ L with state := L.initF L.state (some rx) (some ry) }] } ∧
    init (with_ragged L) (some X) none =
      .ok { name := "with_ragged-" ++ L.name,
            layers := [{ L with state := L.initF L.state (some rx) none }] } ∧
    init (with_ragged L) none (some Y) =
      .ok { name := "with_ragged-" ++ L.name,
            layers := [{ L with state := L.initF L.state none (some ry) }] } ∧
    init (with_ragged L) none none =
      .ok { name := "with_ragged-" ++ L.name,
            layers := [{ L with state := L.initF L.state none none }] } ∧
    (∀ (Xp : Padded α) (is_train : Bool) (rp : Ragged α),
      get_ragged (α := α) (.padded Xp) = .ok rp →
      padded_forward L Xp is_train =
        ((list2padded (unflatten (L.fwd rp is_train).1.data
            (L.fwd rp is_train).1.lengths)),
         fun dYp => list2padded (unflatten
           ((L.fwd rp is_train).2
             ⟨flatten (padded2list dYp), rp.lengths⟩).data rp.lengths))) ∧
    (∀ (Xs : List (Array2d α)) (is_train : Bool) (rl : Ragged α),
      get_ragged (.listV Xs) = .ok rl →
      list_forward L Xs is_train =
        ((unflatten (L.fwd rl is_train).1.data (L.fwd rl is_train).1.lengths),
         fun dYs => unflatten
           ((L.fwd rl is_train).2 ⟨flatten dYs, rl.lengths⟩).data rl.lengths)) := by
  refine ⟨?_, ?_, ?_, ?_, ?_, ?_⟩
  · simp only [init, with_ragged]
    rw [hx, hy]
    rfl
  · simp only [init, with_ragged]
    rw [hx]
    rfl
  · simp only [init, with_ragged]
    rw [hy]
    rfl
  · rfl
  · intro Xp is_train rp hp
    injection hp with h
    subst h
    rfl
  · intro Xs is_train rl hl
    injection hl with h
    subst h
    rfl

/-- C9 witness: the initialization contract at the identity layer with
concrete Ragged and list samples. -/
theorem init_converts_to_ragged_witness :
    get_ragged (α := Int) (.ragged ⟨[[1]], [1]⟩) = .ok ⟨[[1]], [1]⟩ ∧
    get_ragged (α := Int) (.listV [[[2]]]) = .ok ⟨[[2]], [1]⟩ ∧
    (init (with_ragged (idLayer Int)) (some (.ragged ⟨[[1]], [1]⟩))
        (some (.listV [[[2]]])) =
      .ok { name := "with_ragged-" ++ (idLayer Int).name,
            layers := [{ idLayer Int with
              state := (idLayer Int).initF (idLayer Int).state
                (some ⟨[[1]], [1]⟩) (some ⟨[[2]], [1]⟩) }] } ∧
     init (with_ragged (idLayer Int)) (some (.ragged ⟨[[1]], [1]⟩)) none =
      .ok { name := "with_ragged-" ++ (idLayer Int).name,
            layers := [{ idLayer Int with
              state := (idLayer Int).initF (idLayer Int).state
                (some ⟨[[1]], [1]⟩) none }] } ∧
     init (with_ragged (idLayer Int)) none (some (.listV [[[2]]])) =
      .ok { name := "with_ragged-" ++ (idLayer Int).name,
            layers := [{ idLayer Int with
              state := (idLayer Int).initF (idLayer Int).state
                none (some ⟨[[2]], [1]⟩) }] } ∧
     init (with_ragged (idLayer Int)) none none =
      .ok { name := "with_ragged-" ++ (idLayer Int).name,
            layers := [{ idLayer Int with
              state := (idLayer Int).initF (idLayer Int).state none none }] } ∧
     (∀ (Xp : Padded Int) (is_train : Bool) (rp : Ragged Int),
       get_ragged (α := Int) (.padded Xp) = .ok rp →
       padded_forward (idLayer Int) Xp is_train =
         ((list2padded (unflatten ((idLayer Int).fwd rp is_train).1.data
             ((idLayer Int).fwd rp is_train).1.lengths)),
          fun dYp => list2padded (unflatten
            (((idLayer Int).fwd rp is_train).2
              ⟨flatten (padded2list dYp), rp.lengths⟩).data rp.lengths))) ∧
     (∀ (Xs : List (Array2d Int)) (is_train : Bool) (rl : Ragged Int),
       get_ragged (.listV Xs) = .ok rl →
       list_forward (idLayer Int) Xs is_train =
         ((unflatten ((idLayer Int).fwd rl is_train).1.data
             ((idLayer Int).fwd rl is_train).1.lengths),
          fun dYs => unflatten
            (((idLayer Int).fwd rl is_train).2
              ⟨flatten dYs, rl.lengths⟩).data rl.lengths))) :=
  ⟨rfl, rfl,
   init_converts_to_ragged (idLayer Int) (.ragged ⟨[[1]], [1]⟩)
     (.listV [[[2]]]) ⟨[[1]], [1]⟩ ⟨[[2]], [1]⟩ rfl rfl⟩

/-- C10: `init` returns the model it was given — same name, same
sub-layer list structure — with, as its only effect, the head sub-layer
`layers[0]` carrying the state of a single delegated initialization
call; the tail of the layer list is untouched. -/
theorem init_frame_effect {α σ : Type} (m : Model α σ) (l : RLayer α σ)
    (rest : List (RLayer α σ)) (X Y : Option (PyVal α))
    (rx ry : Option (Ragged α)) (hm : m.layers = l :: rest)
    (hx : optRagged X = .ok rx) (hy : optRagged Y = .ok ry) :
    init m X Y =
      .ok { m with layers := { l with state := l.initF l.state rx ry } :: rest } := by
  cases m with
  | mk nm layers =>
    cases hm
    cases X with
    | none =>
      cases hx
      cases Y with
      | none =>
        cases hy
        rfl
      | some y =>
        simp only [optRagged] at hy
        cases hgy : get_ragged y with
        | error e => rw [hgy] at hy; cases hy
        | ok r =>
          rw [hgy] at hy
          cases hy
          simp only [init]
          rw [hgy]
          rfl
    | some x =>
      simp only [optRagged] at hx
      cases hgx : get_ragged x with
      | error e => rw [hgx] at hx; cases hx
      | ok r =>
        rw [hgx] at hx
        cases hx
        cases Y with
        | none =>
          cases hy
          simp only [init]
          rw [hgx]
          rfl
        | some y =>
          simp only [optRagged] at hy
          cases hgy : get_ragged y with
          | error e => rw [hgy] at hy; cases hy
          | ok r2 =>
            rw [hgy] at hy
            cases hy
            simp only [init]
            rw [hgx, hgy]
            rfl

/-- C10 witness: the frame theorem at the adapter around the identity
layer with one concrete sample argument. -/
theorem init_frame_effect_witness :
    (with_ragged (idLayer Int)).layers = idLayer Int :: [] ∧
    optRagged (α := Int) (some (.ragged ⟨[[1]], [1]⟩)) =
      .ok (some ⟨[[1]], [1]⟩) ∧
    optRagged (α := Int) none = .ok none ∧
    init (with_ragged (idLayer Int)) (some (.ragged ⟨[[1]], [1]⟩)) none =
      .ok { with_ragged (idLayer Int) with
            layers := { idLayer Int with
              state := (idLayer Int).initF (idLayer Int).state
                (some ⟨[[1]], [1]⟩) none } :: [] } :=
  ⟨rfl, rfl, rfl,
   init_frame_effect (with_ragged (idLayer Int)) (idLayer Int) []
     (some (.ragged ⟨[[1]], [1]⟩)) none (some ⟨[[1]], [1]⟩) none
     rfl rfl rfl⟩

theorem mem_le_foldr_max (a : Nat) (l : List Nat) (h : a ∈ l) :
    a ≤ l.foldr max 0 := by
  induction l with
  | nil => cases h
  | cons x xs ih =>
    rcases List.mem_cons.mp h with rfl | hx
    · exact le_max_left _ _
    · exact le_trans (ih hx) (le_max_right _ _)

theorem getD_le_maxLen (lengths : List Nat) (i : Nat)
    (hi : i < lengths.length) : lengths.getD i 0 ≤ maxLen lengths := by
  rw [List.getD_eq_getElem lengths 0 hi]
  exact mem_le_foldr_max _ _ (List.getElem_mem hi)

theorem sum_range_ite (M n : Nat) (h : n ≤ M) (g : Nat → Rat) :
    (∑ u in Finset.range M, if u < n then g u else 0) =
      ∑ u in Finset.range n, g u := by
  rw [← Finset.sum_filter]
  congr 1
  ext u
  simp only [Finset.mem_filter, Finset.mem_range]
  omega

theorem padded_weight_zero (P : PaddedAttentionInputs) (f : Rat → Rat)
    (c : Rat) (D i t u h : Nat)
    (hn : ¬(t < P.lengths.getD i 0 ∧ u < P.lengths.getD i 0)) :
    P.weight f c D i t u h = 0 :=
  if_neg hn

theorem padded_dV_zero (P : PaddedAttentionInputs) (f : Rat → Rat) (c : Rat)
    (D : Nat) (dA : Nat → Nat → Nat → Nat → Rat) (i u h d : Nat)
    (hu : P.lengths.getD i 0 ≤ u) :
    P.dV f c D dA i u h d = 0 := by
  unfold PaddedAttentionInputs.dV
  apply Finset.sum_eq_zero
  intro t' _
  rw [padded_weight_zero P f c D i t' u h (by omega), zero_mul]

theorem padded_dLogit_zero_key (P : PaddedAttentionInputs) (f : Rat → Rat)
    (c : Rat) (D : Nat) (dA : Nat → Nat → Nat → Nat → Rat) (i t u h : Nat)
    (hu : P.lengths.getD i 0 ≤ u) :
    P.dLogit f c D dA i t u h = 0 := by
  unfold PaddedAttentionInputs.dLogit
  rw [padded_weight_zero P f c D i t u h (by omega), zero_mul]

theorem padded_dLogit_zero_query (P : PaddedAttentionInputs) (f : Rat → Rat)
    (c : Rat) (D : Nat) (dA : Nat → Nat → Nat → Nat → Rat) (i t u h : Nat)
    (ht : P.lengths.getD i 0 ≤ t) :
    P.dLogit f c D dA i t u h = 0 := by
  unfold PaddedAttentionInputs.dLogit
  rw [padded_weight_zero P f c D i t u h (by omega), zero_mul]

theorem padded_dK_zero (P : PaddedAttentionInputs) (f : Rat → Rat) (c : Rat)
    (D : Nat) (dA : Nat → Nat → Nat → Nat → Rat) (i u h d : Nat)
    (hu : P.lengths.getD i 0 ≤ u) :
    P.dK f c D dA i u h d = 0 := by
  unfold PaddedAttentionInputs.dK
  rw [Finset.sum_eq_zero, mul_zero]
  intro t' _
  rw [padded_dLogit_zero_key P f c D dA i t' u h hu, zero_mul]

theorem padded_dQ_zero (P : PaddedAttentionInputs) (f : Rat → Rat) (c : Rat)
    (D : Nat) (dA : Nat → Nat → Nat → Nat → Rat) (i t h d : Nat)
    (ht : P.lengths.getD i 0 ≤ t) :
    P.dQ f c D dA i t h d = 0 := by
  unfold PaddedAttentionInputs.dQ
  rw [Finset.sum_eq_zero, mul_zero]
  intro u' _
  rw [padded_dLogit_zero_query P f c D dA i t u' h ht, zero_mul]

theorem get_padded_lengths (lengths : List Nat)
    (values : Nat → Nat → Nat → Nat → Rat) :
    (get_padded_attn_inputs lengths values).lengths = lengths := rfl

theorem padded_score_eq (c : Rat) (D : Nat) (lengths : List Nat)
    (values : Nat → Nat → Nat → Nat → Rat) (i t u h : Nat)
    (ht : t < lengths.getD i 0) (hu : u < lengths.getD i 0) :
    (get_padded_attn_inputs lengths values).score c D i t u h =
      (AttentionInputs.mk values lengths).score c D
        (startAt lengths i + t) (startAt lengths i + u) h := by
  unfold PaddedAttentionInputs.score AttentionInputs.score
  dsimp only [get_padded_attn_inputs]
  congr 1
  apply Finset.sum_congr rfl
  intro d' _
  rw [if_pos ht, if_pos hu]

theorem padded_denom_eq (f : Rat → Rat) (c : Rat) (D : Nat)
    (lengths : List Nat) (values : Nat → Nat → Nat → Nat → Rat) (i t h : Nat)
    (hi : i < lengths.length) (ht : t < lengths.getD i 0) :
    (get_padded_attn_inputs lengths values).denom f c D i t h =
      (AttentionInputs.mk values lengths).denom f c D (startAt lengths i)
        (lengths.getD i 0) t h := by
  unfold PaddedAttentionInputs.denom AttentionInputs.denom
  rw [get_padded_lengths lengths values]
  rw [← sum_range_ite (maxLen lengths) (lengths.getD i 0)
    (getD_le_maxLen lengths i hi)
    (fun u => f ((AttentionInputs.mk values lengths).score c D
      (startAt lengths i + t) (startAt lengths i + u) h))]
  apply Finset.sum_congr rfl
  intro u' _
  by_cases hu' : u' < lengths.getD i 0
  · rw [if_pos hu', if_pos hu', padded_score_eq c D lengths values i t u' h ht hu']
  · rw [if_neg hu', if_neg hu']

theorem padded_weight_eq (f : Rat → Rat) (c : Rat) (D : Nat)
    (lengths : List Nat) (values : Nat → Nat → Nat → Nat → Rat) (i t u h : Nat)
    (hi : i < lengths.length) (ht : t < lengths.getD i 0)
    (hu : u < lengths.getD i 0) :
    (get_padded_attn_inputs lengths values).weight f c D i t u h =
      (AttentionInputs.mk values lengths).weight f c D (startAt lengths i)
        (lengths.getD i 0) t u h := by
  unfold PaddedAttentionInputs.weight AttentionInputs.weight
  rw [get_padded_lengths lengths values]
  rw [if_pos ⟨ht, hu⟩,
    padded_score_eq c D lengths values i t u h ht hu,
    padded_denom_eq f c D lengths values i t h hi ht]

theorem padded_attn_eq_ragged (f : Rat → Rat) (c : Rat) (D : Nat)
    (lengths : List Nat) (values : Nat → Nat → Nat → Nat → Rat) (i t h d : Nat)
    (hi : i < lengths.length) (ht : t < lengths.getD i 0) :
    (get_padded_attn_inputs lengths values).attn f c D i t h d =
      (AttentionInputs.mk values lengths).attnItem f c D i t h d := by
  unfold PaddedAttentionInputs.attn AttentionInputs.attnItem
  rw [get_padded_lengths lengths values]
  dsimp only
  rw [← sum_range_ite (maxLen lengths) (lengths.getD i 0)
    (getD_le_maxLen lengths i hi)
    (fun u => (AttentionInputs.mk values lengths).weight f c D
        (startAt lengths i) (lengths.getD i 0) t u h *
      values (startAt lengths i + u) 2 h d)]
  apply Finset.sum_congr rfl
  intro u' _
  by_cases hu' : u' < lengths.getD i 0
  · rw [if_pos hu',
      padded_weight_eq f c D lengths values i t u' h hi ht hu']
    congr 1
    dsimp only [get_padded_attn_inputs]
    rw [if_pos hu']
  · rw [if_neg hu',
      padded_weight_zero _ f c D i t u' h (fun hc => hu' hc.2), zero_mul]

/-- C4: with the attention computation modelled over exact rationals
(the softmax exponential `f` and the `1/√head_dim` scale `c` abstracted
as parameters), the padded-path attention over the dense buffer built
by `get_padded_attn_inputs` from the flat values equals the ragged
per-item attention exactly — hence within any floating-point tolerance
— at every item and every unpadded position, and the padded-path
gradients with respect to the fused QKV buffer vanish identically at
every padded position (key/value position `u` and query position `t2`
at or beyond the item's length). -/
theorem ragged_padded_attention_equivalence (f : Rat → Rat) (c : Rat)
    (D : Nat) (lengths : List Nat)
    (values dA : Nat → Nat → Nat → Nat → Rat) (i t u t2 h d : Nat)
    (hi : i < lengths.length) (ht : t < lengths.getD i 0)
    (hu : lengths.getD i 0 ≤ u) (ht2 : lengths.getD i 0 ≤ t2) :
    (get_padded_attn_inputs lengths values).attn f c D i t h d =
      (AttentionInputs.mk values lengths).attnItem f c D i t h d ∧
    (get_padded_attn_inputs lengths values).dV f c D dA i u h d = 0 ∧
    (get_padded_attn_inputs lengths values).dK f c D dA i u h d = 0 ∧
    (get_padded_attn_inputs lengths values).dQ f c D dA i t2 h d = 0 :=
  ⟨padded_attn_eq_ragged f c D lengths values i t h d hi ht,
   padded_dV_zero _ f c D dA i u h d hu,
   padded_dK_zero _ f c D dA i u h d hu,
   padded_dQ_zero _ f c D dA i t2 h d ht2⟩

/-- C4 witness: the equivalence theorem at a concrete two-item batch
(lengths [1, 2]), with the abstract exponential instantiated by a
positive constant function. -/
theorem ragged_padded_attention_equivalence_witness :
    (0 < [1, 2].length ∧ 0 < [1, 2].getD 0 0 ∧
      [1, 2].getD 0 0 ≤ 1 ∧ [1, 2].getD 0 0 ≤ 1) ∧
    ((get_padded_attn_inputs [1, 2] (fun _ _ _ _ => 1)).attn
        (fun _ => 1) 1 1 0 0 0 0 =
      (AttentionInputs.mk (fun _ _ _ _ => 1) [1, 2]).attnItem
        (fun _ => 1) 1 1 0 0 0 0 ∧
    (get_padded_attn_inputs [1, 2] (fun _ _ _ _ => 1)).dV
        (fun _ => 1) 1 1 (fun _ _ _ _ => 1) 0 1 0 0 = 0 ∧
    (get_padded_attn_inputs [1, 2] (fun _ _ _ _ => 1)).dK
        (fun _ => 1) 1 1 (fun _ _ _ _ => 1) 0 1 0 0 = 0 ∧
    (get_padded_attn_inputs [1, 2] (fun _ _ _ _ => 1)).dQ
        (fun _ => 1) 1 1 (fun _ _ _ _ => 1) 0 1 0 0 = 0) :=
  ⟨⟨by decide, by decide, by decide, by decide⟩,
   ragged_padded_attention_equivalence (fun _ => 1) 1 1 [1, 2]
     (fun _ _ _ _ => 1) (fun _ _ _ _ => 1) 0 0 1 1 0 0
     (by decide) (by decide) (by decide) (by decide)⟩

end Thinc
